import Mathlib

/-!
# Verification of the radiumvod ABR fan-out transcoder

Shallow embedding of `VideoConverterABR` (converter_abr translation unit):
the decode-once / fan-out-encode pipeline that transcodes one input into
several ABR profile outputs. External FFmpeg primitives (decoder, encoder,
scaler, resampler, muxer) are modelled by oracles: their outcomes are
inputs to the embedded control flow, which is translated line by line from
the source.

Layout:
* data model: `ABRProfile`, `Frame`, `EncoderContext`, external `Env`;
* per-frame dispatch: `processVideoFrame`, `processAudioFrame`,
  `stepEncs`, `dispatchFrom` (the decode loop body, lines 1324-1363);
* stream selection: `openLoop` / `openInputFile` (lines 1024-1062);
* pipeline construction and exit codes: `setupEncoder`, `buildLoop`,
  `convert`, `convert_abr` (lines 979-1021, 1092-1127, 1514-1535);
* packet-level transcode with a buffering decoder: `transcodePackets`
  (lines 1300-1381), used to settle the end-of-stream drain claim;
* muxing event traces: `convertTrace`, for header/trailer ordering.
-/

namespace RadiumVod

/-- Media kind of a decoded frame (AVMEDIA_TYPE of the packet's stream). -/
inductive FrameKind where
  | video
  | audio
deriving DecidableEq, Repr

/-- A decoded frame as the dispatcher sees it: its kind, the source
container timestamp it carries (never read by the embedded code, kept to
express independence from source timing), and its audio sample count
(`nb_samples`, 0 for video frames). -/
structure Frame where
  kind : FrameKind
  srcPts : Int
  nb_samples : Nat
deriving DecidableEq, Repr

/-- An ABR profile descriptor, translated from `struct ABRProfile`
(part_002, lines 874-885). -/
structure ABRProfile where
  name : String
  width : Int
  height : Int
  video_bitrate : Int
  audio_bitrate : Int
  h264_profile : String
  h264_level : String
  keyframe_interval : Int
  preset : String
deriving DecidableEq, Repr

/-- The static profile table `ABR_PROFILES` (part_002, lines 887-920). -/
def ABR_PROFILES : List ABRProfile :=
  [ { name := "high", width := 1920, height := 1080,
      video_bitrate := 4000000, audio_bitrate := 128000,
      h264_profile := "high", h264_level := "4.1",
      keyframe_interval := 120, preset := "slow" },
    { name := "medium", width := 1280, height := 720,
      video_bitrate := 2500000, audio_bitrate := 96000,
      h264_profile := "main", h264_level := "3.1",
      keyframe_interval := 120, preset := "medium" },
    { name := "low", width := 854, height := 480,
      video_bitrate := 1200000, audio_bitrate := 64000,
      h264_profile := "baseline", h264_level := "3.0",
      keyframe_interval := 120, preset := "faster" } ]

/-- Outcomes of the external codec calls made during dispatch, indexed by
pipeline position and by the global index of the decoded frame being
dispatched.  `scaleRes` is the value `sws_scale` returns (the source reads
it into `ret`? no - the source discards it, see `processVideoFrame`);
`swrDelay` is what `swr_get_delay` reports; `swrProduced` is the sample
count `swr_convert` actually produced for a requested output size. -/
structure Env where
  sendVideoFail : Nat → Nat → Bool
  scaleRes : Nat → Nat → Int
  swrDelay : Nat → Nat → Nat
  swrFail : Nat → Nat → Bool
  swrProduced : Nat → Nat → Nat → Nat
  sendAudioFail : Nat → Nat → Bool

/-- Per-pipeline mutable state, translated from `struct EncoderContext`
(part_002, lines 935-947) plus observation logs.  `hasAudioCtx` models
`audio_encoder_ctx != nullptr`, `hasSwr` models `swr_ctx != nullptr`;
`inRate`/`outRate` are the decoder's and the audio encoder's sample rates.
The logs record, in order: the frame indices offered to the video and
audio paths, the PTS values assigned, and the PTS of frames the encoders
accepted (`avcodec_send_frame` succeeded). -/
structure EncoderContext where
  hasAudioCtx : Bool
  hasSwr : Bool
  inRate : Nat
  outRate : Nat
  video_next_pts : Nat
  audio_next_pts : Nat
  offeredVideo : List Nat
  offeredAudio : List Nat
  videoPtsLog : List Nat
  audioPtsLog : List Nat
  submittedVideo : List Nat
  submittedAudio : List Nat
  flushed : Bool
deriving DecidableEq, Repr

/-- A fresh pipeline state as the builder produces it: zero PTS counters,
empty logs, not yet flushed. -/
def freshEC (hasA hasSwr : Bool) (inR outR : Nat) : EncoderContext :=
  { hasAudioCtx := hasA, hasSwr := hasSwr, inRate := inR, outRate := outR,
    video_next_pts := 0, audio_next_pts := 0,
    offeredVideo := [], offeredAudio := [],
    videoPtsLog := [], audioPtsLog := [],
    submittedVideo := [], submittedAudio := [], flushed := false }

instance : Inhabited EncoderContext := ⟨freshEC false false 0 0⟩

/-- FFmpeg's `av_rescale_rnd(a, b, c, AV_ROUND_UP)` for non-negative
arguments: `ceil(a * b / c)`. -/
def av_rescale_rnd_up (a b c : Nat) : Nat := (a * b + c - 1) / c

/-- One video frame through one pipeline, translated from
`VideoConverterABR::processVideoFrame` (part_002, lines 1383-1399):
scale (the return value of `sws_scale` is discarded by the source, hence
the unused binding), assign `video_next_pts++` as the PTS, send to the
video encoder and, when the send succeeded, record the accepted frame.
`p` is the pipeline's position, `k` the global index of the decoded
frame. -/
def processVideoFrame (env : Env) (p k : Nat) (e : EncoderContext) :
    EncoderContext :=
  let _scale_ret := env.scaleRes p k
  let pts := e.video_next_pts
  let e := { e with
    offeredVideo := e.offeredVideo ++ [k],
    videoPtsLog := e.videoPtsLog ++ [pts],
    video_next_pts := pts + 1 }
  if env.sendVideoFail p k then e
  else { e with submittedVideo := e.submittedVideo ++ [pts] }

/-- One audio frame through one pipeline, translated from
`VideoConverterABR::processAudioFrame` (part_002, lines 1401-1444).
With a resampler: the requested output size is
`av_rescale_rnd(swr_get_delay + nb_samples, out_rate, in_rate, UP)`;
a failing `swr_convert` returns early; otherwise the PTS counter advances
by the requested size (the source never consults `swr_convert`'s produced
count for the PTS update).  Without a resampler: PTS comes straight from
the running sample counter, which advances by the frame's `nb_samples`. -/
def processAudioFrame (env : Env) (p k : Nat) (f : Frame)
    (e : EncoderContext) : EncoderContext :=
  let e := { e with offeredAudio := e.offeredAudio ++ [k] }
  if e.hasSwr then
    let req := av_rescale_rnd_up (env.swrDelay p k + f.nb_samples)
      e.outRate e.inRate
    if env.swrFail p k then e
    else
      let _produced := env.swrProduced p k req
      let pts := e.audio_next_pts
      let e := { e with
        audioPtsLog := e.audioPtsLog ++ [pts],
        audio_next_pts := pts + req }
      if env.sendAudioFail p k then e
      else { e with submittedAudio := e.submittedAudio ++ [pts] }
  else
    let pts := e.audio_next_pts
    let e := { e with
      audioPtsLog := e.audioPtsLog ++ [pts],
      audio_next_pts := pts + f.nb_samples }
    if env.sendAudioFail p k then e
    else { e with submittedAudio := e.submittedAudio ++ [pts] }

/-- Dispatch of one decoded frame to one pipeline, the body of the
`for (size_t i = 0; i < encoders.size(); i++)` loop (part_002, lines
1353-1359): video frames go to every pipeline's video path, audio frames
only to pipelines whose `audio_encoder_ctx` exists. -/
def processOne (env : Env) (p k : Nat) (f : Frame) (e : EncoderContext) :
    EncoderContext :=
  match f.kind with
  | FrameKind.video => processVideoFrame env p k e
  | FrameKind.audio => if e.hasAudioCtx then processAudioFrame env p k f e else e

/-- The inner loop over `encoders`, carrying the running pipeline
position `p`. -/
def stepEncs (env : Env) (k : Nat) (f : Frame) :
    Nat → List EncoderContext → List EncoderContext
  | _, [] => []
  | p, e :: rest => processOne env p k f e :: stepEncs env k f (p + 1) rest

/-- The frame-level view of the read loop of
`VideoConverterABR::transcodeAllProfiles` (part_002, lines 1324-1363):
each decoded frame, in source order and carrying its global index `k`, is
dispatched to all pipelines before the next frame is considered. -/
def dispatchFrom (env : Env) : Nat → List Frame → List EncoderContext →
    List EncoderContext
  | _, [], encs => encs
  | k, f :: fs, encs => dispatchFrom env (k + 1) fs (stepEncs env k f 0 encs)

/-- The whole frame stream dispatched to an initial pipeline list. -/
def transcodeFrames (env : Env) (encs : List EncoderContext)
    (frames : List Frame) : List EncoderContext :=
  dispatchFrom env 0 frames encs

/-- The same computation restricted to the single pipeline at position
`p` — meaningful because pipelines share no mutable state. -/
def runFrom (env : Env) (p : Nat) : Nat → List Frame → EncoderContext →
    EncoderContext
  | _, [], e => e
  | k, f :: fs, e => runFrom env p (k + 1) fs (processOne env p k f e)

/-- A fleet of `n` freshly built pipelines, with per-position
configuration (audio context present, resampler present, rates). -/
def initEncs (n : Nat) (cfg : Nat → Bool × Bool × Nat × Nat) :
    List EncoderContext :=
  (List.range n).map fun p =>
    freshEC (cfg p).1 (cfg p).2.1 (cfg p).2.2.1 (cfg p).2.2.2

/-- The pipeline at position `i` of a fleet. -/
def nthEnc (l : List EncoderContext) (i : Nat) : EncoderContext :=
  (l[i]?).getD default

/-! ### Bookkeeping functions over the frame stream -/

/-- Indices of the video frames of a stream, counting from `k`. -/
def vIdxsFrom : Nat → List Frame → List Nat
  | _, [] => []
  | k, f :: fs =>
    if f.kind = FrameKind.video then k :: vIdxsFrom (k + 1) fs
    else vIdxsFrom (k + 1) fs

/-- Indices of the audio frames of a stream, counting from `k`. -/
def aIdxsFrom : Nat → List Frame → List Nat
  | _, [] => []
  | k, f :: fs =>
    if f.kind = FrameKind.audio then k :: aIdxsFrom (k + 1) fs
    else aIdxsFrom (k + 1) fs

/-- Number of video frames in a stream. -/
def vCount : List Frame → Nat
  | [] => 0
  | f :: fs => vCount fs + (if f.kind = FrameKind.video then 1 else 0)

/-- Number of video frames, counting from global index `k`, on which the
video encoder of pipeline `p` rejects the submit call — the frames the
dispatcher skips for that pipeline. -/
def skipFrom (env : Env) (p : Nat) : Nat → List Frame → Nat
  | _, [] => 0
  | k, f :: fs =>
    skipFrom env p (k + 1) fs +
      (if f.kind = FrameKind.video then
        (if env.sendVideoFail p k then 1 else 0)
       else 0)

/-- The arithmetic sequence `s, s+1, ..., s+n-1`: the video PTS values a
pipeline assigns. -/
def ptsSeq : Nat → Nat → List Nat
  | _, 0 => []
  | s, n + 1 => s :: ptsSeq (s + 1) n

/-! ### Shared concrete instances used by witnesses -/

/-- An oracle environment in which every external call succeeds. -/
def wEnv : Env :=
  { sendVideoFail := fun _ _ => false, scaleRes := fun _ _ => 0,
    swrDelay := fun _ _ => 0, swrFail := fun _ _ => false,
    swrProduced := fun _ _ r => r, sendAudioFail := fun _ _ => false }

/-- A homogeneous two-pipeline configuration: audio context present, no
resampler, 48 kHz in and out. -/
def wCfg : Nat → Bool × Bool × Nat × Nat := fun _ => (true, false, 48000, 48000)

/-- A small mixed frame stream with nontrivial source timestamps. -/
def wFrames : List Frame :=
  [⟨FrameKind.video, 3000, 0⟩, ⟨FrameKind.audio, -7, 1024⟩,
   ⟨FrameKind.video, 1500, 0⟩, ⟨FrameKind.video, 9000, 0⟩]

/-! ### Packet-level transcode with a buffering decoder

The read loop of `transcodeAllProfiles` (part_002, lines 1324-1363) at
packet granularity.  A `Decoder` buffers frames internally (B-frame
reordering): while not in drain mode it withholds the last `delay` frames
it has accepted; only after a flush (`avcodec_send_packet(ctx, nullptr)`)
would `receive` also yield those.  The source never flushes its decoders:
after the read loop it immediately flushes the encoders (lines 1365-1368,
`flushEncoder`, lines 1468-1477). -/

/-- An FFmpeg decoder context's buffering state. -/
structure Decoder where
  delay : Nat
  buf : List Frame
  flushed : Bool
deriving DecidableEq, Repr

/-- Feeding one compressed packet to a decoder
(`avcodec_send_packet`): the frames the packet will eventually produce
enter the internal buffer. -/
def dec_send (d : Decoder) (fs : List Frame) : Decoder :=
  { d with buf := d.buf ++ fs }

/-- One `avcodec_receive_frame` call: yields the oldest buffered frame,
except that a decoder not yet flushed withholds its last `delay` frames
(returning EAGAIN, modelled as `none`). -/
def dec_receive (d : Decoder) : Option Frame × Decoder :=
  if d.flushed ∨ d.delay < d.buf.length then
    match d.buf with
    | [] => (none, d)
    | f :: rest => (some f, { d with buf := rest })
  else (none, d)

/-- The `while (ret >= 0) { avcodec_receive_frame ... }` inner loop
(lines 1344-1360): receive until the decoder reports EAGAIN or EOF.  The
fuel is instantiated with the buffer length, an upper bound on the number
of successful receives. -/
def recvAllF : Nat → Decoder → List Frame × Decoder
  | 0, d => ([], d)
  | fuel + 1, d =>
    match dec_receive d with
    | (none, d1) => ([], d1)
    | (some f, d1) =>
      let r := recvAllF fuel d1
      (f :: r.1, r.2)

/-- A compressed packet as `av_read_frame` delivers it: the index of the
stream it belongs to, the decoded frames it will contribute, and whether
`avcodec_send_packet` accepts it. -/
structure Packet where
  stream : Nat
  frames : List Frame
  sendOk : Bool
deriving DecidableEq, Repr

/-- Dispatch of one drained frame to the pipeline list, keyed on the
packet's stream as the source does (lines 1353-1359): frames decoded from
the video stream take the video path unconditionally; frames decoded from
the audio stream take the audio path only for pipelines holding an audio
encoder context. -/
def stepEncsByStream (env : Env) (isVideo : Bool) (k : Nat) (f : Frame) :
    Nat → List EncoderContext → List EncoderContext
  | _, [] => []
  | p, e :: rest =>
    (if isVideo then processVideoFrame env p k e
     else if e.hasAudioCtx then processAudioFrame env p k f e else e) ::
      stepEncsByStream env isVideo k f (p + 1) rest

/-- All frames drained from one packet, dispatched in order, threading
the global frame counter. -/
def dispatchDrained (env : Env) (isVideo : Bool) :
    List Frame → Nat → List EncoderContext → Nat × List EncoderContext
  | [], k, encs => (k, encs)
  | f :: fs, k, encs =>
    dispatchDrained env isVideo fs (k + 1)
      (stepEncsByStream env isVideo k f 0 encs)

/-- State threaded through the read loop: the two decoder contexts, the
pipeline list, and the global dispatched-frame counter. -/
structure TransState where
  vdec : Decoder
  adec : Decoder
  encs : List EncoderContext
  kCtr : Nat
deriving Repr

/-- One iteration of the `while (av_read_frame(...) >= 0)` loop (lines
1324-1362): route the packet to the decoder whose stream index matches
(discarding packets of unselected streams), send it, drain the decoder,
and dispatch every drained frame to all pipelines. -/
def readLoopStep (env : Env) (vIdx : Nat) (aIdx : Option Nat)
    (st : TransState) (pkt : Packet) : TransState :=
  if pkt.stream = vIdx then
    if pkt.sendOk then
      let d := dec_send st.vdec pkt.frames
      let r := recvAllF d.buf.length d
      let de := dispatchDrained env true r.1 st.kCtr st.encs
      { st with vdec := r.2, encs := de.2, kCtr := de.1 }
    else st
  else if aIdx = some pkt.stream then
    if pkt.sendOk then
      let d := dec_send st.adec pkt.frames
      let r := recvAllF d.buf.length d
      let de := dispatchDrained env false r.1 st.kCtr st.encs
      { st with adec := r.2, encs := de.2, kCtr := de.1 }
    else st
  else st

/-- The full read loop over the input's packets. -/
def transcodePackets (env : Env) (vIdx : Nat) (aIdx : Option Nat)
    (pkts : List Packet) (st : TransState) : TransState :=
  pkts.foldl (readLoopStep env vIdx aIdx) st

/-- The effect of `VideoConverterABR::flushEncoder` (lines 1468-1477) on
the modelled pipeline state: the encoders enter drain mode.  (Their
remaining packets equal the submitted frames not yet emitted; the counts
live in `submittedVideo`/`submittedAudio`.) -/
def flushEncoder (e : EncoderContext) : EncoderContext :=
  { e with flushed := true }

/-- `VideoConverterABR::transcodeAllProfiles` (lines 1300-1381): run the
read loop, then flush every pipeline's encoders, and return `true` — the
function has no failing return path.  Note what is absent: no
`avcodec_send_packet(decoder, nullptr)` and no drain of the decoders
before the encoders are flushed. -/
def transcodeAllProfiles (env : Env) (vIdx : Nat) (aIdx : Option Nat)
    (pkts : List Packet) (st : TransState) : TransState × Bool :=
  let st1 := transcodePackets env vIdx aIdx pkts st
  ({ st1 with encs := st1.encs.map flushEncoder }, true)

/-! ### Concrete instances for the C3 and C6 analyses -/

/-- An environment whose scaler reports an error on frame 0 of pipeline 0
(every other external call succeeds).  The source discards `sws_scale`'s
return value, so this failure is invisible to it. -/
def ce6Env : Env :=
  { wEnv with scaleRes := fun p k => if p = 0 ∧ k = 0 then -1 else 0 }

/-- Three decoded video frames. -/
def ce6Frames : List Frame :=
  [⟨FrameKind.video, 0, 0⟩, ⟨FrameKind.video, 33, 0⟩,
   ⟨FrameKind.video, 66, 0⟩]

/-- An environment whose video encoder rejects exactly frame 1 submitted
by pipeline 0 (every other external call succeeds). -/
def w6Env : Env :=
  { wEnv with sendVideoFail := fun p k => decide (p = 0 ∧ k = 1) }

/-- A decoder that withholds one frame (for example one pending B-frame)
until flushed. -/
def c3Vdec : Decoder := { delay := 1, buf := [], flushed := false }

/-- Two video packets, each decoding to one frame. -/
def c3Pkts : List Packet :=
  [{ stream := 0, frames := [⟨FrameKind.video, 0, 0⟩], sendOk := true },
   { stream := 0, frames := [⟨FrameKind.video, 33, 0⟩], sendOk := true }]

/-- Initial transcode state for the C3 run: one pipeline, video stream
index 0, no audio stream. -/
def c3St : TransState :=
  { vdec := c3Vdec, adec := { delay := 0, buf := [], flushed := false },
    encs := initEncs 1 wCfg, kCtr := 0 }

/-! ### Stream selection: `openInputFile`

Translation of `VideoConverterABR::openInputFile` (part_002, lines
1024-1062): open the container, read stream information, then walk the
stream table once.  The first video stream is selected and its decoder
set up — a setup failure aborts the open.  An audio stream is selected
whenever none is currently selected; if its decoder setup fails its index
is reset to -1 (modelled as `none`), which lets a LATER audio stream be
tried.  After the walk, a missing video selection fails the open. -/

/-- Media type of an input elementary stream. -/
inductive MediaType where
  | video
  | audio
  | other
deriving DecidableEq, Repr

/-- One entry of the input container's stream table: its media type and
whether `setupDecoder` succeeds for it (decoder found, context allocated
and opened). -/
structure InStream where
  mediaType : MediaType
  decodable : Bool
deriving DecidableEq, Repr

/-- An input file as `openInputFile` observes it: whether
`avformat_open_input` succeeds, whether `avformat_find_stream_info`
succeeds, and the stream table. -/
structure InputDesc where
  openOk : Bool
  streamInfoOk : Bool
  streams : List InStream
deriving DecidableEq, Repr

/-- The stream-table walk of `openInputFile` (lines 1039-1059), with the
running stream index `i` and the current video/audio selections
(`stream_index < 0` modelled as `none`).  Returns the selected video
index and optional audio index, or `none` when the open fails. -/
def openLoop : List InStream → Nat → Option Nat → Option Nat →
    Option (Nat × Option Nat)
  | [], _, vid, aud =>
    match vid with
    | some v => some (v, aud)
    | none => none
  | s :: rest, i, vid, aud =>
    if s.mediaType = MediaType.video ∧ vid = none then
      if s.decodable then openLoop rest (i + 1) (some i) aud
      else none
    else if s.mediaType = MediaType.audio ∧ aud = none then
      openLoop rest (i + 1) vid (if s.decodable then some i else none)
    else openLoop rest (i + 1) vid aud

/-- `VideoConverterABR::openInputFile` (lines 1024-1062). -/
def openInputFile (d : InputDesc) : Option (Nat × Option Nat) :=
  if d.openOk then
    if d.streamInfoOk then openLoop d.streams 0 none none
    else none
  else none

/-- The audio half of the walk in isolation: how the audio selection
evolves once the video selection is settled. -/
def audScan : List InStream → Nat → Option Nat → Option Nat
  | [], _, aud => aud
  | s :: rest, i, aud =>
    if s.mediaType = MediaType.audio ∧ aud = none then
      audScan rest (i + 1) (if s.decodable then some i else none)
    else audScan rest (i + 1) aud

/-- Index of the first stream satisfying a predicate, counting from `i`. -/
def pickFrom (p : InStream → Bool) : List InStream → Nat → Option Nat
  | [], _ => none
  | s :: rest, i => if p s then some i else pickFrom p rest (i + 1)

/-- Index of the input's first video stream. -/
def vidPick (l : List InStream) : Option Nat :=
  pickFrom (fun s => s.mediaType == MediaType.video) l 0

/-- Index of the input's first audio stream whose decoder sets up — the
audio stream the walk actually selects. -/
def audPick (l : List InStream) : Option Nat :=
  pickFrom (fun s => s.mediaType == MediaType.audio && s.decodable) l 0

/-- The input's first video stream, if any. -/
def firstVideo : List InStream → Option InStream
  | [] => none
  | s :: rest =>
    if s.mediaType = MediaType.video then some s else firstVideo rest

/-- Whether video selection succeeds: a first video stream exists and its
decoder sets up. -/
def videoSelectOk (l : List InStream) : Bool :=
  match firstVideo l with
  | none => false
  | some s => s.decodable

/-- The input's first audio stream, if any. -/
def firstAudio : List InStream → Option InStream
  | [] => none
  | s :: rest =>
    if s.mediaType = MediaType.audio then some s else firstAudio rest

/-- C7 counterexample input: an undecodable first video stream followed
by a decodable second video stream. -/
def ce7Input : InputDesc :=
  { openOk := true, streamInfoOk := true,
    streams := [⟨MediaType.video, false⟩, ⟨MediaType.video, true⟩] }

/-- C8 counterexample input: a decodable video stream, an audio stream
whose decoder setup fails, then a second audio stream that sets up. -/
def ce8Input : InputDesc :=
  { openOk := true, streamInfoOk := true,
    streams := [⟨MediaType.video, true⟩, ⟨MediaType.audio, false⟩,
                ⟨MediaType.audio, true⟩] }

/-- Witness input for the amended C8: one decodable video stream and one
failing audio stream — the run really does continue video-only here. -/
def w8Input : InputDesc :=
  { openOk := true, streamInfoOk := true,
    streams := [⟨MediaType.video, true⟩, ⟨MediaType.audio, false⟩] }

/-! ### Concrete instances for the C4 analysis -/

/-- An environment whose resampler reports a delay of 100 samples and
actually produces 1024 output samples per conversion. -/
def ce4Env : Env :=
  { wEnv with
    swrDelay := fun _ _ => 100,
    swrProduced := fun _ _ _ => 1024 }

/-- A pipeline with audio encoder and resampler at 48 kHz in and out (the
source always configures the audio encoder at the decoder's sample
rate). -/
def ce4EC : EncoderContext := freshEC true true 48000 48000

/-- A 1024-sample audio frame. -/
def ce4Frame : Frame := ⟨FrameKind.audio, 0, 1024⟩

/-! ### Pipeline construction and process exit codes

Translation of `VideoConverterABR::setupEncoder` / `setupAudioEncoder`
(part_002, lines 1092-1274), `convert` (lines 979-1021) and the
`convert_abr` entry point (lines 1514-1535).  External allocation and
open calls are oracles indexed by the profile's position. -/

/-- Outcomes of the external calls made while building pipelines. -/
structure SetupEnv where
  outputCtxOk : Nat → Bool
  videoEncOk : Nat → Bool
  audioFindOk : Nat → Bool
  audioCtxAllocOk : Nat → Bool
  audioOpenOk : Nat → Bool
  swrNeeded : Bool
  swrAllocOk : Nat → Bool
  swrInitOk : Nat → Bool
  inSampleRate : Nat

/-- `setupAudioEncoder` (lines 1210-1274) for profile `i`.  Returns
(setup succeeded, `audio_encoder_ctx` allocated, `swr_ctx` allocated):
the context pointers stay set even when a LATER step of the setup fails,
which is what the dispatch guard `encoders[i]->audio_encoder_ctx`
observes. -/
def setupAudioEncoder (env : SetupEnv) (i : Nat) : Bool × Bool × Bool :=
  if env.audioFindOk i = false then (false, false, false)
  else if env.audioCtxAllocOk i = false then (false, false, false)
  else if env.audioOpenOk i = false then (false, true, false)
  else if env.swrNeeded then
    if env.swrAllocOk i = false then (false, true, false)
    else if env.swrInitOk i = false then (false, true, true)
    else (true, true, true)
  else (true, true, false)

/-- `setupEncoder` (lines 1092-1127) for profile `i`: output context and
video encoder failures abort this profile's build; an audio encoder
failure only logs a warning — the pipeline is pushed and setup reports
success regardless.  The audio encoder's sample rate is the decoder's
(line 1228), so `inRate = outRate`. -/
def setupEncoder (env : SetupEnv) (audioPresent : Bool) (i : Nat) :
    Option EncoderContext :=
  if env.outputCtxOk i = false then none
  else if env.videoEncOk i = false then none
  else
    let a := if audioPresent then setupAudioEncoder env i
             else (true, false, false)
    some (freshEC a.2.1 a.2.2 env.inSampleRate env.inSampleRate)

/-- The setup loop of `convert` (lines 988-998): profiles in order, the
FIRST `setupEncoder` failure makes `convert` return false
immediately. -/
def buildLoop (env : SetupEnv) (audioPresent : Bool) :
    List ABRProfile → Nat → Option (List EncoderContext)
  | [], _ => some []
  | _ :: rest, i =>
    match setupEncoder env audioPresent i with
    | none => none
    | some ec =>
      match buildLoop env audioPresent rest (i + 1) with
      | none => none
      | some ecs => some (ec :: ecs)

/-- Everything `convert` and `convert_abr` observe about the outside
world. -/
structure ConvertEnv where
  fileExists : Bool
  input : InputDesc
  setup : SetupEnv
  headerOk : Nat → Bool

/-- `VideoConverterABR::convert` (lines 979-1021): open the input, build
a pipeline per profile (first failure aborts), write all headers (first
failure aborts), transcode (which always reports success) and write the
trailers (return values ignored). -/
def convert (env : ConvertEnv) (profiles : List ABRProfile) : Bool :=
  match openInputFile env.input with
  | none => false
  | some sel =>
    match buildLoop env.setup sel.2.isSome profiles 0 with
    | none => false
    | some encs => (List.range encs.length).all env.headerOk

/-- `convert_abr` (lines 1514-1535): exit 1 when the input file does not
exist or `convert` fails, exit 0 otherwise. -/
def convert_abr (env : ConvertEnv) (profiles : List ABRProfile) : Nat :=
  if env.fileExists = false then 1
  else if convert env profiles then 0 else 1

/-- A one-video-stream input that opens successfully. -/
def c5Input : InputDesc :=
  { openOk := true, streamInfoOk := true,
    streams := [⟨MediaType.video, true⟩] }

/-- A setup environment in which only profile 0's video encoder opens. -/
def ce5Setup : SetupEnv :=
  { outputCtxOk := fun _ => true, videoEncOk := fun i => decide (i = 0),
    audioFindOk := fun _ => true, audioCtxAllocOk := fun _ => true,
    audioOpenOk := fun _ => true, swrNeeded := false,
    swrAllocOk := fun _ => true, swrInitOk := fun _ => true,
    inSampleRate := 48000 }

/-- C5 counterexample environment: the input exists and opens, profile 0
builds, profile 1 does not. -/
def ce5Env : ConvertEnv :=
  { fileExists := true, input := c5Input, setup := ce5Setup,
    headerOk := fun _ => true }

/-- A setup environment in which every step succeeds except
`avcodec_open2` for the audio encoder — leaving the allocated audio
context behind. -/
def w10Setup : SetupEnv :=
  { outputCtxOk := fun _ => true, videoEncOk := fun _ => true,
    audioFindOk := fun _ => true, audioCtxAllocOk := fun _ => true,
    audioOpenOk := fun _ => false, swrNeeded := false,
    swrAllocOk := fun _ => true, swrInitOk := fun _ => true,
    inSampleRate := 48000 }

/-! ### Muxing event traces

The order of header writes, packet writes and trailer writes produced by
one `convert` run (lines 1000-1018 around `transcodeAllProfiles`), at
event granularity: `writeHeader` per pipeline before the transcode loop,
packet writes by `receiveAndWritePackets` during dispatch and during the
encoder flush, `av_write_trailer` per pipeline last. -/

/-- A muxing event on pipeline `i`'s output container. -/
inductive Ev where
  | header (i : Nat)
  | packet (i : Nat)
  | trailer (i : Nat)
deriving DecidableEq, Repr

/-- How many packets each pipeline's encoders emit: `pktsNow p k` after
the submit of frame `k`, `pktsFlush p` during the final flush. -/
structure MuxEnv where
  pktsNow : Nat → Nat → Nat
  pktsFlush : Nat → Nat

/-- Packet-write events while dispatching frame `k` to all `n`
pipelines. -/
def packetEvsAt (menv : MuxEnv) (k n : Nat) : List Ev :=
  (List.range n).flatMap fun p =>
    List.replicate (menv.pktsNow p k) (Ev.packet p)

/-- Packet-write events of the whole dispatch loop over `frameCnt`
decoded frames. -/
def bodyEvs (menv : MuxEnv) (frameCnt n : Nat) : List Ev :=
  (List.range frameCnt).flatMap fun k => packetEvsAt menv k n

/-- Packet-write events of the final encoder flush. -/
def flushEvs (menv : MuxEnv) (n : Nat) : List Ev :=
  (List.range n).flatMap fun p =>
    List.replicate (menv.pktsFlush p) (Ev.packet p)

/-- The event trace of one `convert` run: nothing if the open or a
pipeline build fails; the successfully written headers if a header write
fails (the loop aborts at the first failure, before any packet); else all
headers, then all dispatch-time packets, then all flush packets, then all
trailers. -/
def convertTrace (cenv : ConvertEnv) (menv : MuxEnv)
    (profiles : List ABRProfile) (frameCnt : Nat) : List Ev :=
  match openInputFile cenv.input with
  | none => []
  | some sel =>
    match buildLoop cenv.setup sel.2.isSome profiles 0 with
    | none => []
    | some encs =>
      let n := encs.length
      if (List.range n).all cenv.headerOk then
        ((List.range n).map Ev.header) ++ bodyEvs menv frameCnt n ++
          flushEvs menv n ++ ((List.range n).map Ev.trailer)
      else ((List.range n).takeWhile cenv.headerOk).map Ev.header

/-- A mux environment emitting one packet per submit and one per
flush. -/
def w9Mux : MuxEnv := { pktsNow := fun _ _ => 1, pktsFlush := fun _ => 1 }

/-- A convert environment in which everything succeeds. -/
def w9Env : ConvertEnv :=
  { fileExists := true, input := c5Input, setup := w10Setup,
    headerOk := fun _ => true }

/-! ### The fan-out loop acts independently on each pipeline -/

theorem stepEncs_getElem (env : Env) (k : Nat) (f : Frame) :
    ∀ (encs : List EncoderContext) (p i : Nat),
      (stepEncs env k f p encs)[i]? =
        (encs[i]?).map (processOne env (p + i) k f) := by
  intro encs
  induction encs with
  | nil => intro p i; simp [stepEncs]
  | cons e rest ih =>
    intro p i
    cases i with
    | zero => simp [stepEncs]
    | succ j =>
      simp only [stepEncs, List.getElem?_cons_succ]
      rw [ih (p + 1) j]
      have hpj : p + 1 + j = p + (j + 1) := by omega
      rw [hpj]

theorem dispatchFrom_getElem (env : Env) :
    ∀ (frames : List Frame) (k : Nat) (encs : List EncoderContext) (i : Nat),
      (dispatchFrom env k frames encs)[i]? =
        (encs[i]?).map (runFrom env i k frames) := by
  intro frames
  induction frames with
  | nil => intro k encs i; simp [dispatchFrom, runFrom]
  | cons f fs ih =>
    intro k encs i
    simp only [dispatchFrom, runFrom]
    rw [ih (k + 1) (stepEncs env k f 0 encs) i, stepEncs_getElem]
    cases encs[i]? with
    | none => simp
    | some e => simp [runFrom]

theorem transcodeFrames_nthEnc (env : Env) (n : Nat)
    (cfg : Nat → Bool × Bool × Nat × Nat) (frames : List Frame) (i : Nat)
    (hi : i < n) :
    nthEnc (transcodeFrames env (initEncs n cfg) frames) i =
      runFrom env i 0 frames
        (freshEC (cfg i).1 (cfg i).2.1 (cfg i).2.2.1 (cfg i).2.2.2) := by
  unfold nthEnc transcodeFrames
  rw [dispatchFrom_getElem]
  simp [initEncs, List.getElem?_map, List.getElem?_range, hi]

theorem mem_ptsSeq : ∀ (n s x : Nat), x ∈ ptsSeq s n → s ≤ x := by
  intro n
  induction n with
  | zero => intro s x h; simp [ptsSeq] at h
  | succ m ih =>
    intro s x h
    simp only [ptsSeq, List.mem_cons] at h
    rcases h with h | h
    · omega
    · have := ih (s + 1) x h; omega

theorem ptsSeq_pairwise : ∀ (n s : Nat), (ptsSeq s n).Pairwise (· < ·) := by
  intro n
  induction n with
  | zero => intro s; simp [ptsSeq]
  | succ m ih =>
    intro s
    simp only [ptsSeq, List.pairwise_cons]
    refine ⟨fun x hx => ?_, ih (s + 1)⟩
    have := mem_ptsSeq m (s + 1) x hx
    omega

theorem ptsSeq_head (s n : Nat) (h : 0 < n) : (ptsSeq s n).head? = some s := by
  cases n with
  | zero => omega
  | succ m => simp [ptsSeq]

theorem vCount_map_kind (frames : List Frame) :
    vCount frames =
      ((frames.map Frame.kind).filter
        (fun c => c = FrameKind.video)).length := by
  induction frames with
  | nil => simp [vCount]
  | cons f fs ih =>
    simp only [vCount, List.map_cons, List.filter_cons]
    by_cases h : f.kind = FrameKind.video <;> simp [h, ih]

/-! ### Field-wise effect of one audio dispatch -/

theorem processAudioFrame_fields (env : Env) (p k : Nat) (f : Frame)
    (e : EncoderContext) :
    (processAudioFrame env p k f e).hasAudioCtx = e.hasAudioCtx ∧
    (processAudioFrame env p k f e).offeredVideo = e.offeredVideo ∧
    (processAudioFrame env p k f e).videoPtsLog = e.videoPtsLog ∧
    (processAudioFrame env p k f e).video_next_pts = e.video_next_pts ∧
    (processAudioFrame env p k f e).submittedVideo = e.submittedVideo ∧
    (processAudioFrame env p k f e).offeredAudio = e.offeredAudio ++ [k] := by
  unfold processAudioFrame
  by_cases hs : e.hasSwr = true <;>
    simp only [hs, if_true, if_false, Bool.false_eq_true] <;>
    split_ifs <;> simp

/-- Field-wise effect of one video dispatch. -/
theorem processVideoFrame_fields (env : Env) (p k : Nat)
    (e : EncoderContext) :
    (processVideoFrame env p k e).hasAudioCtx = e.hasAudioCtx ∧
    (processVideoFrame env p k e).offeredVideo = e.offeredVideo ++ [k] ∧
    (processVideoFrame env p k e).videoPtsLog =
      e.videoPtsLog ++ [e.video_next_pts] ∧
    (processVideoFrame env p k e).video_next_pts = e.video_next_pts + 1 ∧
    (processVideoFrame env p k e).submittedVideo.length =
      e.submittedVideo.length +
        (if env.sendVideoFail p k then 0 else 1) ∧
    (processVideoFrame env p k e).offeredAudio = e.offeredAudio := by
  unfold processVideoFrame
  split_ifs <;> simp

theorem runFrom_spec (env : Env) (p : Nat) :
    ∀ (frames : List Frame) (k : Nat) (e : EncoderContext),
      (runFrom env p k frames e).hasAudioCtx = e.hasAudioCtx ∧
      (runFrom env p k frames e).offeredVideo =
        e.offeredVideo ++ vIdxsFrom k frames ∧
      (runFrom env p k frames e).videoPtsLog =
        e.videoPtsLog ++ ptsSeq e.video_next_pts (vCount frames) ∧
      (runFrom env p k frames e).video_next_pts =
        e.video_next_pts + vCount frames ∧
      (runFrom env p k frames e).submittedVideo.length +
          skipFrom env p k frames =
        e.submittedVideo.length + vCount frames ∧
      (runFrom env p k frames e).offeredAudio =
        e.offeredAudio ++
          (if e.hasAudioCtx then aIdxsFrom k frames else []) := by
  intro frames
  induction frames with
  | nil =>
    intro k e
    simp [runFrom, vIdxsFrom, aIdxsFrom, vCount, skipFrom, ptsSeq]
  | cons f fs ih =>
    intro k e
    obtain ⟨h1, h2, h3, h4, h5, h6⟩ := ih (k + 1) (processOne env p k f e)
    have hrw : runFrom env p k (f :: fs) e =
        runFrom env p (k + 1) fs (processOne env p k f e) := rfl
    cases hf : f.kind with
    | video =>
      have hE : processOne env p k f e = processVideoFrame env p k e := by
        simp [processOne, hf]
      obtain ⟨g1, g2, g3, g4, g5, g6⟩ := processVideoFrame_fields env p k e
      rw [hE] at h1 h2 h3 h4 h5 h6
      refine ⟨?_, ?_, ?_, ?_, ?_, ?_⟩
      · rw [hrw, hE, h1, g1]
      · rw [hrw, hE, h2, g2]
        simp [vIdxsFrom, hf]
      · rw [hrw, hE, h3, g3, g4]
        simp [vCount, hf, ptsSeq]
      · rw [hrw, hE, h4, g4]
        simp only [vCount, hf, eq_self_iff_true, if_true]
        omega
      · rw [hrw, hE]
        rw [g5] at h5
        simp only [skipFrom, vCount, hf, eq_self_iff_true, if_true]
        by_cases hfail : env.sendVideoFail p k = true <;>
          simp only [hfail, if_true, if_false, Bool.false_eq_true] at h5 ⊢ <;>
          omega
      · rw [hrw, hE, h6, g6, g1]
        simp [aIdxsFrom, hf]
    | audio =>
      have havk : (f.kind = FrameKind.video) = False := by
        simp [hf]
      cases hctx : e.hasAudioCtx with
      | true =>
        have hE : processOne env p k f e = processAudioFrame env p k f e := by
          simp [processOne, hf, hctx]
        obtain ⟨g1, g2, g3, g4, g5, g6⟩ :=
          processAudioFrame_fields env p k f e
        rw [hE] at h1 h2 h3 h4 h5 h6
        refine ⟨?_, ?_, ?_, ?_, ?_, ?_⟩
        · rw [hrw, hE, h1, g1]
          exact hctx
        · rw [hrw, hE, h2, g2]
          simp [vIdxsFrom, hf]
        · rw [hrw, hE, h3, g3, g4]
          simp [vCount, hf]
        · rw [hrw, hE, h4, g4]
          simp [vCount, hf]
        · rw [hrw, hE]
          rw [g5] at h5
          simp only [skipFrom, vCount, havk, if_false]
          omega
        · rw [hrw, hE, h6, g6, g1, hctx]
          simp [aIdxsFrom, hf]
      | false =>
        have hE : processOne env p k f e = e := by
          simp [processOne, hf, hctx]
        rw [hE] at h1 h2 h3 h4 h5 h6
        refine ⟨?_, ?_, ?_, ?_, ?_, ?_⟩
        · rw [hrw, hE, h1]
          exact hctx
        · rw [hrw, hE, h2]
          simp [vIdxsFrom, hf]
        · rw [hrw, hE, h3]
          simp [vCount, hf]
        · rw [hrw, hE, h4]
          simp [vCount, hf]
        · rw [hrw, hE]
          simp only [skipFrom, vCount, havk, if_false]
          omega
        · rw [hrw, hE, h6, hctx]
          simp

/-- C1: in the fan-out dispatch loop, every decoded frame is offered to
every live pipeline exactly once and in source order (video frames to
every pipeline, audio frames to every pipeline holding an audio encoder
context), and after any prefix of the input the video-frame submission
counts of any two pipelines agree once each pipeline's error-skipped
frames are added back: submissions plus skips always equal the number of
video frames decoded so far. -/
theorem C1_fanout_lockstep (env : Env) (n : Nat)
    (cfg : Nat → Bool × Bool × Nat × Nat) (frames : List Frame)
    (i j : Nat) (hi : i < n) (hj : j < n) :
    (∀ kpre : Nat,
      (nthEnc (transcodeFrames env (initEncs n cfg) (frames.take kpre))
        i).offeredVideo = vIdxsFrom 0 (frames.take kpre)) ∧
    ((cfg i).1 = true → ∀ kpre : Nat,
      (nthEnc (transcodeFrames env (initEncs n cfg) (frames.take kpre))
        i).offeredAudio = aIdxsFrom 0 (frames.take kpre)) ∧
    (∀ kpre : Nat,
      (nthEnc (transcodeFrames env (initEncs n cfg) (frames.take kpre))
          i).submittedVideo.length +
        skipFrom env i 0 (frames.take kpre) = vCount (frames.take kpre)) ∧
    (∀ kpre : Nat,
      (nthEnc (transcodeFrames env (initEncs n cfg) (frames.take kpre))
          i).submittedVideo.length +
        skipFrom env i 0 (frames.take kpre) =
      (nthEnc (transcodeFrames env (initEncs n cfg) (frames.take kpre))
          j).submittedVideo.length +
        skipFrom env j 0 (frames.take kpre)) := by
  have main : ∀ (q : Nat), q < n → ∀ kpre : Nat,
      (nthEnc (transcodeFrames env (initEncs n cfg) (frames.take kpre))
        q).offeredVideo = vIdxsFrom 0 (frames.take kpre) ∧
      ((cfg q).1 = true →
        (nthEnc (transcodeFrames env (initEncs n cfg) (frames.take kpre))
          q).offeredAudio = aIdxsFrom 0 (frames.take kpre)) ∧
      (nthEnc (transcodeFrames env (initEncs n cfg) (frames.take kpre))
          q).submittedVideo.length +
        skipFrom env q 0 (frames.take kpre) = vCount (frames.take kpre) := by
    intro q hq kpre
    rw [transcodeFrames_nthEnc env n cfg (frames.take kpre) q hq]
    obtain ⟨h1, h2, h3, h4, h5, h6⟩ :=
      runFrom_spec env q (frames.take kpre) 0
        (freshEC (cfg q).1 (cfg q).2.1 (cfg q).2.2.1 (cfg q).2.2.2)
    refine ⟨?_, ?_, ?_⟩
    · simpa [freshEC] using h2
    · intro hA
      rw [h6]
      simp [freshEC, hA]
    · simpa [freshEC] using h5
  refine ⟨fun kpre => (main i hi kpre).1,
          fun hA kpre => (main i hi kpre).2.1 hA,
          fun kpre => (main i hi kpre).2.2,
          fun kpre => ?_⟩
  rw [(main i hi kpre).2.2, (main j hj kpre).2.2]

/-- Concrete instance of `C1_fanout_lockstep`: two live pipelines, four
decoded frames, all external calls succeeding. -/
theorem C1_fanout_lockstep_witness :
    (0 : Nat) < 2 ∧ (1 : Nat) < 2 ∧
    (nthEnc (transcodeFrames wEnv (initEncs 2 wCfg) (wFrames.take 4))
      0).offeredVideo = vIdxsFrom 0 (wFrames.take 4) ∧
    (nthEnc (transcodeFrames wEnv (initEncs 2 wCfg) (wFrames.take 4))
        0).submittedVideo.length +
      skipFrom wEnv 0 0 (wFrames.take 4) = vCount (wFrames.take 4) :=
  ⟨by decide, by decide,
   (C1_fanout_lockstep wEnv 2 wCfg wFrames 0 1 (by decide) (by decide)).1 4,
   (C1_fanout_lockstep wEnv 2 wCfg wFrames 0 1 (by decide)
     (by decide)).2.2.1 4⟩

/-- C2: for every pipeline of a non-empty fleet, the video PTS values the
dispatcher assigns form exactly the sequence `0, 1, 2, ...` (one value per
decoded video frame): the sequence starts at 0, is strictly increasing,
and depends only on the kinds of the decoded frames — never on the source
container timestamps they carry. -/
theorem C2_video_pts_monotone (env : Env) (n : Nat)
    (cfg : Nat → Bool × Bool × Nat × Nat) (frames : List Frame) (i : Nat)
    (hi : i < n) :
    (nthEnc (transcodeFrames env (initEncs n cfg) frames) i).videoPtsLog =
      ptsSeq 0 (vCount frames) ∧
    (nthEnc (transcodeFrames env (initEncs n cfg) frames)
      i).videoPtsLog.Pairwise (· < ·) ∧
    (0 < vCount frames →
      (nthEnc (transcodeFrames env (initEncs n cfg) frames)
        i).videoPtsLog.head? = some 0) ∧
    (∀ frames' : List Frame,
      frames'.map Frame.kind = frames.map Frame.kind →
      (nthEnc (transcodeFrames env (initEncs n cfg) frames')
        i).videoPtsLog =
      (nthEnc (transcodeFrames env (initEncs n cfg) frames)
        i).videoPtsLog) := by
  have core : ∀ fr : List Frame,
      (nthEnc (transcodeFrames env (initEncs n cfg) fr) i).videoPtsLog =
        ptsSeq 0 (vCount fr) := by
    intro fr
    rw [transcodeFrames_nthEnc env n cfg fr i hi]
    obtain ⟨h1, h2, h3, h4, h5, h6⟩ :=
      runFrom_spec env i fr 0
        (freshEC (cfg i).1 (cfg i).2.1 (cfg i).2.2.1 (cfg i).2.2.2)
    simpa [freshEC] using h3
  refine ⟨core frames, ?_, ?_, ?_⟩
  · rw [core frames]
    exact ptsSeq_pairwise (vCount frames) 0
  · intro hpos
    rw [core frames]
    exact ptsSeq_head 0 (vCount frames) hpos
  · intro frames' hkind
    rw [core frames, core frames']
    have : vCount frames' = vCount frames := by
      rw [vCount_map_kind, vCount_map_kind, hkind]
    rw [this]

/-- Concrete instance of `C2_video_pts_monotone`: the first pipeline of
two, over the mixed sample stream, with a kind-equal stream carrying
different source timestamps. -/
theorem C2_video_pts_monotone_witness :
    (0 : Nat) < 2 ∧
    (nthEnc (transcodeFrames wEnv (initEncs 2 wCfg) wFrames)
      0).videoPtsLog = ptsSeq 0 (vCount wFrames) ∧
    (0 < vCount wFrames →
      (nthEnc (transcodeFrames wEnv (initEncs 2 wCfg) wFrames)
        0).videoPtsLog.head? = some 0) :=
  ⟨by decide,
   (C2_video_pts_monotone wEnv 2 wCfg wFrames 0 (by decide)).1,
   (C2_video_pts_monotone wEnv 2 wCfg wFrames 0 (by decide)).2.2.1⟩

/-! ### Auxiliary counting lemmas -/

theorem vCount_all_video :
    ∀ frames : List Frame, (∀ f ∈ frames, f.kind = FrameKind.video) →
      vCount frames = frames.length := by
  intro frames
  induction frames with
  | nil => intro _; simp [vCount]
  | cons f fs ih =>
    intro h
    have hf : f.kind = FrameKind.video := h f (by simp)
    have := ih (fun g hg => h g (by simp [hg]))
    simp [vCount, hf, this]

theorem skipFrom_zero (env : Env) (p : Nat)
    (h : ∀ k, env.sendVideoFail p k = false) :
    ∀ (frames : List Frame) (s : Nat), skipFrom env p s frames = 0 := by
  intro frames
  induction frames with
  | nil => intro s; simp [skipFrom]
  | cons f fs ih =>
    intro s
    simp [skipFrom, h s, ih (s + 1)]

theorem skipFrom_single (env : Env) (j0 k0 : Nat)
    (h : ∀ k, env.sendVideoFail j0 k = true ↔ k = k0) :
    ∀ (frames : List Frame) (s : Nat),
      (∀ f ∈ frames, f.kind = FrameKind.video) →
      skipFrom env j0 s frames =
        if s ≤ k0 ∧ k0 < s + frames.length then 1 else 0 := by
  intro frames
  induction frames with
  | nil =>
    intro s _
    have hc : ¬(s ≤ k0 ∧ k0 < s) := by omega
    simp [skipFrom, hc]
  | cons f fs ih =>
    intro s hall
    have hf : f.kind = FrameKind.video := hall f (by simp)
    have htail := ih (s + 1) (fun g hg => hall g (by simp [hg]))
    cases hb : env.sendVideoFail j0 s with
    | true =>
      have hs : s = k0 := (h s).mp hb
      have htail0 : skipFrom env j0 (s + 1) fs = 0 := by
        rw [htail, if_neg (by omega)]
      have hcond : s ≤ k0 ∧ k0 < s + (f :: fs).length := by
        simp only [List.length_cons]
        omega
      simp only [skipFrom, hf, eq_self_iff_true, if_true, hb, htail0]
      rw [if_pos hcond]
    | false =>
      have hs : s ≠ k0 := fun e => by simp [(h s).mpr e] at hb
      simp only [skipFrom, hf, eq_self_iff_true, if_true, hb,
        Bool.false_eq_true, if_false, htail, List.length_cons]
      by_cases hc : s + 1 ≤ k0 ∧ k0 < s + 1 + fs.length
      · have hc' : s ≤ k0 ∧ k0 < s + (fs.length + 1) := by omega
        simp [hc, hc']
      · have hc' : ¬(s ≤ k0 ∧ k0 < s + (fs.length + 1)) := by omega
        simp [hc, hc']

/-- Per-pipeline submission-count bookkeeping, shared by the C6 analysis:
for each pipeline of a fresh fleet, submissions plus error-skips equal the
number of video frames. -/
theorem submitted_plus_skips (env : Env) (n : Nat)
    (cfg : Nat → Bool × Bool × Nat × Nat) (frames : List Frame) (q : Nat)
    (hq : q < n) :
    (nthEnc (transcodeFrames env (initEncs n cfg) frames)
        q).submittedVideo.length + skipFrom env q 0 frames =
      vCount frames := by
  rw [transcodeFrames_nthEnc env n cfg frames q hq]
  obtain ⟨h1, h2, h3, h4, h5, h6⟩ :=
    runFrom_spec env q frames 0
      (freshEC (cfg q).1 (cfg q).2.1 (cfg q).2.2.1 (cfg q).2.2.2)
  simpa [freshEC] using h5

/-- C6 counterexample: a transform (scale) call fails for pipeline 0 on
frame 0 — `ce6Env.scaleRes 0 0 < 0` — yet the pipeline's encoder still
receives all three frames: its output is NOT one frame shorter, because
the source never checks `sws_scale`'s return value. -/
theorem C6_counterexample :
    ce6Env.scaleRes 0 0 < 0 ∧
    (nthEnc (transcodeFrames ce6Env (initEncs 1 wCfg) ce6Frames)
      0).submittedVideo.length = 3 ∧
    ce6Frames.length = 3 := by
  refine ⟨by decide, ?_, by decide⟩
  decide

/-- C6 (amended): if the ENCODER-SUBMIT call fails for one pipeline on one
frame, that frame is skipped for that pipeline only — every other
pipeline submits all frames, the failing pipeline still gets offered
every subsequent frame, and its submission count is exactly one lower;
the run never aborts (a scale failure, by contrast, is undetected and
skips nothing — see `C6_counterexample`). -/
theorem C6_encode_failure_isolated (env : Env) (n : Nat)
    (cfg : Nat → Bool × Bool × Nat × Nat) (frames : List Frame)
    (j0 k0 : Nat) (hj : j0 < n) (hk : k0 < frames.length)
    (hall : ∀ f ∈ frames, f.kind = FrameKind.video)
    (hfail : ∀ q k, env.sendVideoFail q k = true ↔ (q = j0 ∧ k = k0)) :
    (nthEnc (transcodeFrames env (initEncs n cfg) frames)
        j0).submittedVideo.length + 1 = frames.length ∧
    (∀ i, i < n → i ≠ j0 →
      (nthEnc (transcodeFrames env (initEncs n cfg) frames)
        i).submittedVideo.length = frames.length) ∧
    (nthEnc (transcodeFrames env (initEncs n cfg) frames)
        j0).offeredVideo = vIdxsFrom 0 frames ∧
    (∀ (env' : Env) (vIdx : Nat) (aIdx : Option Nat) (pkts : List Packet)
      (st : TransState),
      (transcodeAllProfiles env' vIdx aIdx pkts st).2 = true) := by
  have hlen : vCount frames = frames.length := vCount_all_video frames hall
  refine ⟨?_, ?_, ?_, ?_⟩
  · have hsub := submitted_plus_skips env n cfg frames j0 hj
    have hskip : skipFrom env j0 0 frames = 1 := by
      rw [skipFrom_single env j0 k0 (fun k => (hfail j0 k).trans (by simp))
        frames 0 hall]
      simp [hk]
    omega
  · intro i hi hne
    have hsub := submitted_plus_skips env n cfg frames i hi
    have hskip : skipFrom env i 0 frames = 0 := by
      refine skipFrom_zero env i (fun k => ?_) frames 0
      cases hbk : env.sendVideoFail i k with
      | true => exact absurd ((hfail i k).mp hbk).1 hne
      | false => rfl
    omega
  · rw [transcodeFrames_nthEnc env n cfg frames j0 hj]
    obtain ⟨h1, h2, h3, h4, h5, h6⟩ :=
      runFrom_spec env j0 frames 0
        (freshEC (cfg j0).1 (cfg j0).2.1 (cfg j0).2.2.1 (cfg j0).2.2.2)
    simpa [freshEC] using h2
  · intro env' vIdx aIdx pkts st
    rfl

/-- Concrete instance of `C6_encode_failure_isolated`: pipeline 0 of two
fails to submit frame 1; it ends one frame short, pipeline 1 submits all
three frames. -/
theorem C6_encode_failure_isolated_witness :
    (nthEnc (transcodeFrames w6Env (initEncs 2 wCfg) ce6Frames)
        0).submittedVideo.length + 1 = ce6Frames.length ∧
    (nthEnc (transcodeFrames w6Env (initEncs 2 wCfg) ce6Frames)
        1).submittedVideo.length = ce6Frames.length :=
  ⟨(C6_encode_failure_isolated w6Env 2 wCfg ce6Frames 0 1 (by decide)
      (by decide) (by decide)
      (by intro q k; simp [w6Env, decide_eq_true_eq])).1,
   (C6_encode_failure_isolated w6Env 2 wCfg ce6Frames 0 1 (by decide)
      (by decide) (by decide)
      (by intro q k; simp [w6Env, decide_eq_true_eq])).2.1 1 (by decide)
      (by decide)⟩

/-- C3: the end-of-stream sequence never drains the decoders.  On a
two-frame video input whose decoder withholds one reordered frame, the
read loop dispatches only frame 0; the run then flushes the encoders with
the decoder still holding one undelivered frame (`flushed = false`,
buffer non-empty), so that frame is lost — the spec's step 1 (decoder
flush and drain, dispatching the drained frames before any encoder is
flushed) is absent from the code. -/
theorem C3_missing_decoder_drain :
    (nthEnc (transcodeAllProfiles wEnv 0 none c3Pkts c3St).1.encs
      0).offeredVideo = [0] ∧
    (transcodeAllProfiles wEnv 0 none c3Pkts c3St).1.vdec.buf.length = 1 ∧
    (transcodeAllProfiles wEnv 0 none c3Pkts c3St).1.vdec.flushed = false ∧
    (nthEnc (transcodeAllProfiles wEnv 0 none c3Pkts c3St).1.encs
      0).flushed = true ∧
    (transcodeAllProfiles wEnv 0 none c3Pkts c3St).2 = true := by
  decide

/-! ### Stream-selection lemmas -/

theorem openLoop_vid_found :
    ∀ (streams : List InStream) (i v : Nat) (aud : Option Nat),
      openLoop streams i (some v) aud = some (v, audScan streams i aud) := by
  intro streams
  induction streams with
  | nil => intro i v aud; simp [openLoop, audScan]
  | cons s rest ih =>
    intro i v aud
    simp only [openLoop, audScan]
    rw [if_neg (by simp)]
    by_cases hc : s.mediaType = MediaType.audio ∧ aud = none
    · rw [if_pos hc, if_pos hc, ih]
    · rw [if_neg hc, if_neg hc, ih]

theorem audScan_some :
    ∀ (streams : List InStream) (i x : Nat),
      audScan streams i (some x) = some x := by
  intro streams
  induction streams with
  | nil => intro i x; simp [audScan]
  | cons s rest ih =>
    intro i x
    simp only [audScan]
    rw [if_neg (by simp)]
    exact ih (i + 1) x

theorem audScan_none :
    ∀ (streams : List InStream) (i : Nat),
      audScan streams i none =
        pickFrom (fun s => s.mediaType == MediaType.audio && s.decodable)
          streams i := by
  intro streams
  induction streams with
  | nil => intro i; simp [audScan, pickFrom]
  | cons s rest ih =>
    intro i
    simp only [audScan, pickFrom]
    by_cases ha : s.mediaType = MediaType.audio
    · rw [if_pos (by simp [ha])]
      by_cases hd : s.decodable = true
      · rw [if_pos hd, audScan_some, if_pos (by simp [ha, hd])]
      · have hd' : s.decodable = false := by
          revert hd
          cases s.decodable <;> simp
        rw [if_neg hd, ih (i + 1), if_neg (by simp [hd'])]
    · rw [if_neg (by simp [ha]), if_neg (by simp [ha]), ih (i + 1)]

theorem openLoop_none_iff :
    ∀ (streams : List InStream) (i : Nat) (aud : Option Nat),
      openLoop streams i none aud = none ↔
        videoSelectOk streams = false := by
  intro streams
  induction streams with
  | nil => intro i aud; simp [openLoop, videoSelectOk, firstVideo]
  | cons s rest ih =>
    intro i aud
    by_cases hv : s.mediaType = MediaType.video
    · simp only [openLoop, videoSelectOk, firstVideo, hv, if_pos rfl]
      rw [if_pos (by simp [hv])]
      cases hd : s.decodable with
      | true => simp [openLoop_vid_found, hd]
      | false => simp [hd]
    · simp only [openLoop, videoSelectOk, firstVideo]
      rw [if_neg (by simp [hv]), if_neg hv]
      by_cases hc : s.mediaType = MediaType.audio ∧ aud = none
      · rw [if_pos hc]
        simpa [videoSelectOk] using
          ih (i + 1) (if s.decodable then some i else none)
      · rw [if_neg hc]
        simpa [videoSelectOk] using ih (i + 1) aud

theorem openLoop_aud_committed :
    ∀ (streams : List InStream) (i x v : Nat) (a : Option Nat),
      openLoop streams i none (some x) = some (v, a) →
      some v =
        pickFrom (fun s => s.mediaType == MediaType.video) streams i ∧
      a = some x := by
  intro streams
  induction streams with
  | nil => intro i x v a h; simp [openLoop] at h
  | cons s rest ih =>
    intro i x v a h
    by_cases hv : s.mediaType = MediaType.video
    · rw [openLoop, if_pos (by simp [hv])] at h
      cases hd : s.decodable with
      | true =>
        rw [hd, if_pos rfl, openLoop_vid_found, audScan_some] at h
        have hpair := Prod.mk.inj (Option.some.inj h)
        constructor
        · rw [← hpair.1, pickFrom, if_pos (by simp [hv])]
        · exact hpair.2.symm
      | false =>
        rw [hd] at h
        simp at h
    · rw [openLoop, if_neg (by simp [hv])] at h
      have step : openLoop rest (i + 1) none (some x) = some (v, a) := by
        by_cases hc : s.mediaType = MediaType.audio ∧ (some x : Option Nat) = none
        · exact absurd hc.2 (by simp)
        · rwa [if_neg hc] at h
      obtain ⟨h1, h2⟩ := ih (i + 1) x v a step
      exact ⟨by rw [h1, pickFrom, if_neg (by simp [hv])], h2⟩

theorem openLoop_selection :
    ∀ (streams : List InStream) (i v : Nat) (a : Option Nat),
      openLoop streams i none none = some (v, a) →
      some v =
        pickFrom (fun s => s.mediaType == MediaType.video) streams i ∧
      a = pickFrom (fun s => s.mediaType == MediaType.audio && s.decodable)
            streams i := by
  intro streams
  induction streams with
  | nil => intro i v a h; simp [openLoop] at h
  | cons s rest ih =>
    intro i v a h
    by_cases hv : s.mediaType = MediaType.video
    · rw [openLoop, if_pos (by simp [hv])] at h
      cases hd : s.decodable with
      | true =>
        rw [hd, if_pos rfl, openLoop_vid_found, audScan_none] at h
        have hpair := Prod.mk.inj (Option.some.inj h)
        refine ⟨?_, ?_⟩
        · rw [← hpair.1, pickFrom, if_pos (by simp [hv])]
        · rw [← hpair.2, pickFrom, if_neg (by simp [hv])]
      | false =>
        rw [hd] at h
        simp at h
    · by_cases ha : s.mediaType = MediaType.audio
      · rw [openLoop, if_neg (by simp [hv]), if_pos (by simp [ha])] at h
        cases hd : s.decodable with
        | true =>
          rw [hd] at h
          simp only [if_pos rfl] at h
          obtain ⟨h1, h2⟩ := openLoop_aud_committed rest (i + 1) i v a h
          refine ⟨?_, ?_⟩
          · rw [h1, pickFrom, if_neg (by simp [hv])]
          · rw [h2, pickFrom, if_pos (by simp [ha, hd])]
        | false =>
          rw [hd] at h
          simp only [Bool.false_eq_true, if_false] at h
          obtain ⟨h1, h2⟩ := ih (i + 1) v a h
          refine ⟨?_, ?_⟩
          · rw [h1, pickFrom, if_neg (by simp [hv])]
          · rw [h2, pickFrom, if_neg (by simp [ha, hd])]
      · rw [openLoop, if_neg (by simp [hv]), if_neg (by simp [ha])] at h
        obtain ⟨h1, h2⟩ := ih (i + 1) v a h
        refine ⟨?_, ?_⟩
        · rw [h1, pickFrom, if_neg (by simp [hv])]
        · rw [h2, pickFrom, if_neg (by simp [ha])]

/-- C7 counterexample: `ce7Input` parses, has stream information, and
contains a decodable video stream (its second), yet `openInputFile`
fails — because only the FIRST video stream is ever considered. -/
theorem C7_counterexample :
    openInputFile ce7Input = none ∧
    ce7Input.openOk = true ∧ ce7Input.streamInfoOk = true ∧
    (∃ s ∈ ce7Input.streams,
      s.mediaType = MediaType.video ∧ s.decodable = true) := by
  decide

/-- C7 (amended): opening the input fails if and only if the container
cannot be parsed, stream information cannot be obtained, or the FIRST
video stream is missing or its decoder cannot be set up; video streams
after the first are never considered, and audio failures never make the
open fail. -/
theorem C7_open_failure_iff (d : InputDesc) :
    openInputFile d = none ↔
      d.openOk = false ∨ d.streamInfoOk = false ∨
        videoSelectOk d.streams = false := by
  cases ho : d.openOk with
  | false => simp [openInputFile, ho]
  | true =>
    cases hi : d.streamInfoOk with
    | false => simp [openInputFile, ho, hi]
    | true =>
      simp [openInputFile, ho, hi, openLoop_none_iff d.streams 0 none]

/-- C8 counterexample: in `ce8Input` the first audio stream's decoder
setup fails, yet the run is NOT video-only — the walk resets the audio
selection to "none yet" and then selects the LATER audio stream 2. -/
theorem C8_counterexample :
    openInputFile ce8Input = some (0, some 2) ∧
    firstAudio ce8Input.streams = some ⟨MediaType.audio, false⟩ := by
  decide

/-- C8 (amended): the reader selects the first video stream; audio
streams are tried in order and the selected audio stream is the FIRST
WHOSE DECODER SETS UP — a failed audio stream is deselected and a later
audio stream may take its place; only when no audio stream sets up does
the run continue video-only.  Audio setup failures never make the open
fail: any input that parses, has stream information and a decodable first
video stream opens successfully. -/
theorem C8_audio_selection (d : InputDesc) (v : Nat) (a : Option Nat)
    (h : openInputFile d = some (v, a)) :
    some v = vidPick d.streams ∧ a = audPick d.streams ∧
    (∀ d' : InputDesc, d'.openOk = true → d'.streamInfoOk = true →
      videoSelectOk d'.streams = true → openInputFile d' ≠ none) := by
  have hopen : d.openOk = true := by
    cases ho : d.openOk with
    | true => rfl
    | false => rw [openInputFile, ho] at h; simp at h
  have hinfo : d.streamInfoOk = true := by
    cases hi : d.streamInfoOk with
    | true => rfl
    | false => rw [openInputFile, hopen, hi] at h; simp at h
  rw [openInputFile, hopen, hinfo] at h
  simp only [if_true] at h
  obtain ⟨h1, h2⟩ := openLoop_selection d.streams 0 v a h
  refine ⟨h1, h2, ?_⟩
  intro d' ho' hi' hsel hcon
  rw [openInputFile, ho', hi'] at hcon
  simp only [if_true] at hcon
  have := (openLoop_none_iff d'.streams 0 none).mp hcon
  rw [hsel] at this
  exact absurd this (by simp)

/-- Concrete instance of `C8_audio_selection`: a failing sole audio
stream leaves the run video-only while the open still succeeds. -/
theorem C8_audio_selection_witness :
    some 0 = vidPick w8Input.streams ∧
    audPick w8Input.streams = (none : Option Nat) ∧
    openInputFile w8Input = some (0, none) :=
  ⟨(C8_audio_selection w8Input 0 none (by decide)).1,
   ((C8_audio_selection w8Input 0 none (by decide)).2.1).symm.trans
     (by decide),
   by decide⟩

/-! ### The audio PTS counter -/

/-- C4 counterexample: with the resampler reporting a 100-sample delay on
a 1024-sample frame at equal rates, the requested output size is 1124 and
the audio PTS counter advances by 1124 — although the conversion actually
produced only 1024 samples.  The counter does not advance by the produced
count. -/
theorem C4_counterexample :
    (processAudioFrame ce4Env 0 0 ce4Frame ce4EC).audio_next_pts =
      ce4EC.audio_next_pts + 1124 ∧
    ce4Env.swrProduced 0 0 1124 = 1024 ∧ (1124 : Nat) ≠ 1024 := by
  decide

/-- C4 (amended): with a resampler, the requested output sample count is
`av_rescale_rnd(swr_get_delay + nb_samples, out_rate, in_rate, UP)` and
the pipeline's audio PTS counter advances by exactly that REQUESTED
count whenever the conversion does not fail — regardless of how many
samples the conversion actually produced (the code ignores
`swr_convert`'s return beyond its sign); on conversion failure the
counter is untouched.  Without a resampler the frame's PTS is the running
counter, which then advances by the frame's sample count. -/
theorem C4_audio_pts_advance (env : Env) (p k : Nat) (f : Frame)
    (e : EncoderContext) :
    (e.hasSwr = true → env.swrFail p k = false →
      (processAudioFrame env p k f e).audio_next_pts =
        e.audio_next_pts +
          av_rescale_rnd_up (env.swrDelay p k + f.nb_samples)
            e.outRate e.inRate ∧
      (processAudioFrame env p k f e).audioPtsLog =
        e.audioPtsLog ++ [e.audio_next_pts]) ∧
    (e.hasSwr = true → env.swrFail p k = true →
      (processAudioFrame env p k f e).audio_next_pts =
        e.audio_next_pts) ∧
    (e.hasSwr = false →
      (processAudioFrame env p k f e).audio_next_pts =
        e.audio_next_pts + f.nb_samples ∧
      (processAudioFrame env p k f e).audioPtsLog =
        e.audioPtsLog ++ [e.audio_next_pts]) := by
  refine ⟨fun hs hfail => ?_, fun hs hfail => ?_, fun hs => ?_⟩
  · by_cases hsend : env.sendAudioFail p k = true <;>
      simp [processAudioFrame, hs, hfail, hsend]
  · simp [processAudioFrame, hs, hfail]
  · by_cases hsend : env.sendAudioFail p k = true <;>
      simp [processAudioFrame, hs, hsend]

/-- Concrete instance of `C4_audio_pts_advance`: the 48 kHz pipeline on a
1024-sample frame with 100 samples of resampler delay. -/
theorem C4_audio_pts_advance_witness :
    ce4EC.hasSwr = true ∧ ce4Env.swrFail 0 0 = false ∧
    (processAudioFrame ce4Env 0 0 ce4Frame ce4EC).audio_next_pts =
      ce4EC.audio_next_pts +
        av_rescale_rnd_up (ce4Env.swrDelay 0 0 + ce4Frame.nb_samples)
          ce4EC.outRate ce4EC.inRate :=
  ⟨by decide, by decide,
   ((C4_audio_pts_advance ce4Env 0 0 ce4Frame ce4EC).1 (by decide)
     (by decide)).1⟩

/-! ### Pipeline construction and exit codes  -/

theorem setupEncoder_isSome (env : SetupEnv) (b : Bool) (i : Nat) :
    (setupEncoder env b i).isSome = true ↔
      env.outputCtxOk i = true ∧ env.videoEncOk i = true := by
  cases h1 : env.outputCtxOk i <;> cases h2 : env.videoEncOk i <;>
    simp [setupEncoder, h1, h2]

theorem buildLoop_isSome (env : SetupEnv) (b : Bool) :
    ∀ (profiles : List ABRProfile) (i : Nat),
      (buildLoop env b profiles i).isSome = true ↔
        ∀ j, j < profiles.length →
          (setupEncoder env b (i + j)).isSome = true := by
  intro profiles
  induction profiles with
  | nil => intro i; simp [buildLoop]
  | cons p rest ih =>
    intro i
    simp only [buildLoop]
    cases hs : setupEncoder env b i with
    | none =>
      constructor
      · intro h; simp at h
      · intro h
        have h0 := h 0 (Nat.succ_pos _)
        rw [Nat.add_zero, hs] at h0
        simp at h0
    | some ec =>
      cases hb : buildLoop env b rest (i + 1) with
      | none =>
        constructor
        · intro h; simp at h
        · intro h
          have hrest : ∀ j, j < rest.length →
              (setupEncoder env b (i + 1 + j)).isSome = true := by
            intro j hj
            have := h (j + 1) (by simpa using Nat.succ_lt_succ hj)
            rwa [show i + (j + 1) = i + 1 + j by omega] at this
          have hcon := (ih (i + 1)).mpr hrest
          rw [hb] at hcon
          simp at hcon
      | some ecs =>
        constructor
        · intro _ j hj
          cases j with
          | zero => rw [Nat.add_zero, hs]; rfl
          | succ j' =>
            have hrest := (ih (i + 1)).mp (by rw [hb]; rfl)
            have hj' : j' < rest.length := by
              simp only [List.length_cons] at hj
              omega
            have := hrest j' hj'
            rwa [show i + 1 + j' = i + (j' + 1) by omega] at this
        · intro _
          rfl

/-- C5 counterexample: the input exists and opens, profile 0's pipeline
builds successfully, profile 1's build fails — and the process exit code
is 1: a single profile's build failure aborts the whole run even though
another profile's pipeline was built. -/
theorem C5_counterexample :
    convert_abr ce5Env ABR_PROFILES = 1 ∧
    (setupEncoder ce5Env.setup false 0).isSome = true := by
  decide

/-- C5 (amended): the exit code is 0 or 1, and it is 0 exactly when the
input file exists, the input opens, EVERY profile's pipeline builds (the
setup loop aborts at the first failure — there is no per-profile
recovery and no continuing with the surviving pipelines), and every
header write succeeds; equivalently, the build survives iff every
single profile's `setupEncoder` succeeds. -/
theorem C5_exit_policy (env : ConvertEnv) (profiles : List ABRProfile) :
    (convert_abr env profiles = 0 ∨ convert_abr env profiles = 1) ∧
    (convert_abr env profiles = 0 ↔
      env.fileExists = true ∧
      (∃ sel, openInputFile env.input = some sel ∧
        ∃ encs, buildLoop env.setup sel.2.isSome profiles 0 = some encs ∧
          (List.range encs.length).all env.headerOk = true)) ∧
    (∀ (b : Bool) (i : Nat),
      (buildLoop env.setup b profiles i).isSome = true ↔
        ∀ j, j < profiles.length →
          (setupEncoder env.setup b (i + j)).isSome = true) := by
  refine ⟨?_, ?_, fun b i => buildLoop_isSome env.setup b profiles i⟩
  · unfold convert_abr
    split_ifs <;> simp
  · unfold convert_abr convert
    cases hf : env.fileExists with
    | false => simp
    | true =>
      simp only [Bool.true_eq_false, if_false]
      cases ho : openInputFile env.input with
      | none => simp
      | some sel =>
        dsimp only
        cases hb : buildLoop env.setup sel.2.isSome profiles 0 with
        | none => simp [hb]
        | some encs =>
          dsimp only
          constructor
          · intro h0
            have hall : (List.range encs.length).all env.headerOk = true := by
              by_contra hno
              rw [if_neg hno] at h0
              exact absurd h0 (by simp)
            exact ⟨trivial, sel, rfl, encs, hb, hall⟩
          · rintro ⟨-, sel', hsel, encs', hencs, hall⟩
            obtain rfl : sel' = sel := (Option.some.inj hsel).symm
            rw [hb] at hencs
            obtain rfl : encs' = encs := (Option.some.inj hencs).symm
            rw [if_pos hall]

/-- Concrete instance of `C5_exit_policy`: the exit code is always 0 or
1. -/
theorem C5_exit_policy_witness :
    convert_abr w9Env ABR_PROFILES = 0 ∨
    convert_abr w9Env ABR_PROFILES = 1 :=
  (C5_exit_policy w9Env ABR_PROFILES).1

/-- C10: when the audio encoder setup for a profile fails while the video
encoder setup succeeded, `setupEncoder` still reports success and the
pipeline is created (with `hasAudioCtx` reflecting whether the audio
context pointer was left allocated); thereafter audio frames are
dispatched only to pipelines whose audio encoder context exists, while
video frames are dispatched to every pipeline unconditionally; and
whether the build loop survives depends only on the output-context and
video-encoder outcomes, never on audio. -/
theorem C10_audio_failure_keeps_pipeline (env : SetupEnv) (i : Nat)
    (hout : env.outputCtxOk i = true) (hvid : env.videoEncOk i = true)
    (_haud : (setupAudioEncoder env i).1 = false) :
    (∃ ec, setupEncoder env true i = some ec ∧
      ec.hasAudioCtx = (setupAudioEncoder env i).2.1 ∧
      ec.video_next_pts = 0 ∧ ec.videoPtsLog = []) ∧
    (∀ (env' : Env) (p k : Nat) (f : Frame) (e : EncoderContext),
      f.kind = FrameKind.audio → e.hasAudioCtx = false →
      processOne env' p k f e = e) ∧
    (∀ (env' : Env) (p k : Nat) (f : Frame) (e : EncoderContext),
      f.kind = FrameKind.video →
      processOne env' p k f e = processVideoFrame env' p k e) ∧
    (∀ (profiles : List ABRProfile) (i0 : Nat),
      (buildLoop env true profiles i0).isSome = true ↔
        ∀ j, j < profiles.length →
          (env.outputCtxOk (i0 + j) = true ∧
           env.videoEncOk (i0 + j) = true)) := by
  refine ⟨?_, ?_, ?_, ?_⟩
  · refine ⟨freshEC (setupAudioEncoder env i).2.1
      (setupAudioEncoder env i).2.2 env.inSampleRate env.inSampleRate,
      ?_, rfl, rfl, rfl⟩
    rw [setupEncoder, if_neg (by simp [hout]), if_neg (by simp [hvid])]
    simp
  · intro env' p k f e hf hctx
    simp [processOne, hf, hctx]
  · intro env' p k f e hf
    simp [processOne, hf]
  · intro profiles i0
    rw [buildLoop_isSome env true profiles i0]
    constructor
    · intro h j hj
      exact (setupEncoder_isSome env true (i0 + j)).mp (h j hj)
    · intro h j hj
      exact (setupEncoder_isSome env true (i0 + j)).mpr (h j hj)

/-- Concrete instance of `C10_audio_failure_keeps_pipeline`:
`avcodec_open2` fails for the audio encoder of profile 0, yet the
pipeline is created, with the allocated audio context pointer still
set. -/
theorem C10_audio_failure_keeps_pipeline_witness :
    w10Setup.outputCtxOk 0 = true ∧ w10Setup.videoEncOk 0 = true ∧
    (setupAudioEncoder w10Setup 0).1 = false ∧
    (∃ ec, setupEncoder w10Setup true 0 = some ec ∧
      ec.hasAudioCtx = (setupAudioEncoder w10Setup 0).2.1 ∧
      ec.video_next_pts = 0 ∧ ec.videoPtsLog = []) :=
  ⟨by decide, by decide, by decide,
   (C10_audio_failure_keeps_pipeline w10Setup 0 (by decide) (by decide)
     (by decide)).1⟩

/-! ### Trace-ordering lemmas -/

theorem mem_of_split {α : Type} {l xs ys : List α} {e : α}
    (h : l = xs ++ e :: ys) : e ∈ l := by
  rw [h]
  simp

theorem append_split_of_notMem {α : Type} {e : α} :
    ∀ (A : List α) {B xs ys : List α}, e ∉ A → A ++ B = xs ++ e :: ys →
      ∃ zs, xs = A ++ zs ∧ zs ++ e :: ys = B := by
  intro A
  induction A with
  | nil =>
    intro B xs ys _ heq
    refine ⟨xs, by simp, ?_⟩
    simpa using heq.symm
  | cons a A ih =>
    intro B xs ys hnm heq
    cases xs with
    | nil =>
      simp only [List.cons_append, List.nil_append] at heq
      have h1 : a = e := (List.cons.inj heq).1
      have : e ∈ a :: A := by
        rw [← h1]
        exact List.mem_cons_self a A
      exact absurd this hnm
    | cons x xs' =>
      simp only [List.cons_append] at heq
      have h1 : a = x := (List.cons.inj heq).1
      have h2 : A ++ B = xs' ++ e :: ys := (List.cons.inj heq).2
      obtain ⟨zs, hz1, hz2⟩ :=
        ih (fun hm => hnm (List.mem_cons_of_mem _ hm)) h2
      refine ⟨zs, ?_, hz2⟩
      rw [← h1, hz1, List.cons_append]

theorem mem_packetEvsAt {menv : MuxEnv} {k n : Nat} {e : Ev}
    (h : e ∈ packetEvsAt menv k n) : ∃ p, p < n ∧ e = Ev.packet p := by
  simp only [packetEvsAt, List.mem_flatMap] at h
  obtain ⟨p, hp, hrep⟩ := h
  exact ⟨p, List.mem_range.mp hp, List.eq_of_mem_replicate hrep⟩

theorem mem_bodyEvs {menv : MuxEnv} {frameCnt n : Nat} {e : Ev}
    (h : e ∈ bodyEvs menv frameCnt n) : ∃ p, p < n ∧ e = Ev.packet p := by
  simp only [bodyEvs, List.mem_flatMap] at h
  obtain ⟨k, _, hmem⟩ := h
  exact mem_packetEvsAt hmem

theorem mem_flushEvs {menv : MuxEnv} {n : Nat} {e : Ev}
    (h : e ∈ flushEvs menv n) : ∃ p, p < n ∧ e = Ev.packet p := by
  simp only [flushEvs, List.mem_flatMap] at h
  obtain ⟨p, hp, hrep⟩ := h
  exact ⟨p, List.mem_range.mp hp, List.eq_of_mem_replicate hrep⟩

/-- C9: for every pipeline, in the event trace of any `convert` run,
every packet written to that pipeline's output is preceded by that
pipeline's header write, and no packet of that pipeline — dispatch-time
or flush-time — occurs after its trailer write. -/
theorem C9_header_first_trailer_last (cenv : ConvertEnv) (menv : MuxEnv)
    (profiles : List ABRProfile) (frameCnt i : Nat) :
    (∀ xs ys, convertTrace cenv menv profiles frameCnt =
        xs ++ Ev.packet i :: ys → Ev.header i ∈ xs) ∧
    (∀ xs ys, convertTrace cenv menv profiles frameCnt =
        xs ++ Ev.trailer i :: ys → Ev.packet i ∉ ys) := by
  unfold convertTrace
  cases ho : openInputFile cenv.input with
  | none =>
    constructor <;> intro xs ys heq <;> simp at heq
  | some sel =>
    dsimp only
    cases hb : buildLoop cenv.setup sel.2.isSome profiles 0 with
    | none =>
      constructor <;> intro xs ys heq <;> simp at heq
    | some encs =>
      dsimp only
      by_cases hh : (List.range encs.length).all cenv.headerOk = true
      · rw [if_pos hh]
        constructor
        · intro xs ys heq
          rw [List.append_assoc, List.append_assoc] at heq
          have hnm : Ev.packet i ∉
              (List.range encs.length).map Ev.header := by
            simp [List.mem_map]
          obtain ⟨zs, hxs, hrest⟩ := append_split_of_notMem _ hnm heq
          have hmem : Ev.packet i ∈
              bodyEvs menv frameCnt encs.length ++
                (flushEvs menv encs.length ++
                  (List.range encs.length).map Ev.trailer) := by
            rw [← hrest]
            simp
          have hin : i < encs.length := by
            rcases List.mem_append.mp hmem with h1 | h2
            · obtain ⟨p, hp, he⟩ := mem_bodyEvs h1
              cases he
              exact hp
            · rcases List.mem_append.mp h2 with h3 | h4
              · obtain ⟨p, hp, he⟩ := mem_flushEvs h3
                cases he
                exact hp
              · simp [List.mem_map] at h4
          rw [hxs]
          refine List.mem_append_left _ ?_
          simp only [List.mem_map]
          exact ⟨i, List.mem_range.mpr hin, rfl⟩
        · intro xs ys heq hpk
          have hnm : Ev.trailer i ∉
              ((List.range encs.length).map Ev.header ++
                bodyEvs menv frameCnt encs.length) ++
                flushEvs menv encs.length := by
            intro hmem
            rcases List.mem_append.mp hmem with h1 | h2
            · rcases List.mem_append.mp h1 with h3 | h4
              · simp [List.mem_map] at h3
              · obtain ⟨p, _, he⟩ := mem_bodyEvs h4
                exact Ev.noConfusion he
            · obtain ⟨p, _, he⟩ := mem_flushEvs h2
              exact Ev.noConfusion he
          obtain ⟨zs, hxs, hrest⟩ := append_split_of_notMem _ hnm heq
          have : Ev.packet i ∈ (List.range encs.length).map Ev.trailer := by
            rw [← hrest]
            exact List.mem_append_right _ (List.mem_cons_of_mem _ hpk)
          simp [List.mem_map] at this
      · rw [if_neg hh]
        constructor
        · intro xs ys heq
          have := mem_of_split heq
          simp [List.mem_map] at this
        · intro xs ys heq
          have := mem_of_split heq
          simp [List.mem_map] at this

/-- Concrete instance of `C9_header_first_trailer_last`: one pipeline,
one frame, one packet per submit and per flush — the trace is
`[header 0, packet 0, packet 0, trailer 0]` and its decompositions around
the packet and trailer events satisfy both ordering properties. -/
theorem C9_header_first_trailer_last_witness :
    Ev.header 0 ∈ ([Ev.header 0] : List Ev) ∧
    Ev.packet 0 ∉ ([] : List Ev) :=
  ⟨(C9_header_first_trailer_last w9Env w9Mux (ABR_PROFILES.take 1) 1 0).1
      [Ev.header 0] [Ev.packet 0, Ev.trailer 0] (by decide),
   (C9_header_first_trailer_last w9Env w9Mux (ABR_PROFILES.take 1) 1 0).2
      [Ev.header 0, Ev.packet 0, Ev.packet 0] [] (by decide)⟩

end RadiumVod
